import Mathlib

/-!
Shallow embedding of `src/3d_interface.py` (class `GLWidget`): the scene
state (rotation angle, model/view/projection matrices, geometry tables),
the math-library primitives it calls (`pyrr.Matrix44.look_at`,
`perspective_projection`, `from_y_rotation`, `np.radians`), and the
methods `update_rotation`, `resizeGL`, `paintGL`, `draw_axes`,
`draw_cube`, `add_geometry`.

The angle state is exact in the reachable executions (sums of 1.0 and
subtractions of 360.0 on small values are exact in double precision), so
the angle is modelled in ℚ; matrices are over ℝ since the math library
uses trigonometric functions.
-/

open Real

namespace LinAl

/-- 4×4 real matrix, stored row-major as `pyrr` / numpy store it. -/
abbrev M4 := Matrix (Fin 4) (Fin 4) ℝ

structure Vec3 where
  x : ℝ
  y : ℝ
  z : ℝ

def dot3 (a b : Vec3) : ℝ := a.x * b.x + a.y * b.y + a.z * b.z

def cross3 (a b : Vec3) : Vec3 :=
  ⟨a.y * b.z - a.z * b.y, a.z * b.x - a.x * b.z, a.x * b.y - a.y * b.x⟩

def sub3 (a b : Vec3) : Vec3 := ⟨a.x - b.x, a.y - b.y, a.z - b.z⟩

/-- `pyrr.vector.normalize`: divide by the Euclidean norm. -/
noncomputable def normalize3 (v : Vec3) : Vec3 :=
  let n := Real.sqrt (dot3 v v)
  ⟨v.x / n, v.y / n, v.z / n⟩

/-- `pyrr.matrix44.create_look_at(eye, target, up)` (row-major). -/
noncomputable def look_at (eye target up : Vec3) : M4 :=
  let forward := normalize3 (sub3 target eye)
  let side := normalize3 (cross3 forward up)
  let up2 := normalize3 (cross3 side forward)
  Matrix.of
    ![![side.x, up2.x, -forward.x, 0],
      ![side.y, up2.y, -forward.y, 0],
      ![side.z, up2.z, -forward.z, 0],
      ![-(dot3 side eye), -(dot3 up2 eye), dot3 forward eye, 1]]

/-- `pyrr.matrix44.create_perspective_projection_from_bounds`. -/
noncomputable def perspective_from_bounds (left right bottom top near far : ℝ) : M4 :=
  let A := (right + left) / (right - left)
  let B := (top + bottom) / (top - bottom)
  let C := -(far + near) / (far - near)
  let D := -2 * far * near / (far - near)
  let E := 2 * near / (right - left)
  let F := 2 * near / (top - bottom)
  Matrix.of
    ![![E, 0, 0, 0],
      ![0, F, 0, 0],
      ![A, B, C, -1],
      ![0, 0, D, 0]]

/-- `pyrr.matrix44.create_perspective_projection(fovy, aspect, near, far)`. -/
noncomputable def perspective_projection (fovy aspect near far : ℝ) : M4 :=
  let ymax := near * Real.tan (fovy * π / 360)
  let xmax := ymax * aspect
  perspective_from_bounds (-xmax) xmax (-ymax) ymax near far

/-- `pyrr.matrix44.create_from_y_rotation(theta)` (row-vector convention,
as in the pyrr source). -/
noncomputable def from_y_rotation (theta : ℝ) : M4 :=
  Matrix.of
    ![![Real.cos theta, 0, -Real.sin theta, 0],
      ![0, 1, 0, 0],
      ![Real.sin theta, 0, Real.cos theta, 0],
      ![0, 0, 0, 1]]

/-- `np.radians(x) = x * π / 180`, applied to the rational angle state. -/
noncomputable def radians (a : ℚ) : ℝ := (a : ℝ) * π / 180

/-- `pyrr.Matrix44.__mul__`: `self * other` is `np.dot(other, self)` on the
row-major arrays (pyrr composes left-to-right for row vectors). -/
def pyrrMul (self other : M4) : M4 := other * self

/-- The axes vertex table from `init_geometries` (flat, interleaved
position+color, 6 floats per vertex). -/
def axesTable : List ℚ :=
  [0, 0, 0, 1, 0, 0,
   1, 0, 0, 1, 0, 0,
   0, 0, 0, 0, 1, 0,
   0, 1, 0, 0, 1, 0,
   0, 0, 0, 0, 0, 1,
   0, 0, 1, 0, 0, 1]

/-- The cube vertex table from `init_geometries` (6 faces × 4 vertices,
flat, interleaved position+color). -/
def cubeTable : List ℚ :=
  [-0.5, -0.5,  0.5,  0, 1, 1,
    0.5, -0.5,  0.5,  0, 1, 1,
    0.5,  0.5,  0.5,  0, 1, 1,
   -0.5,  0.5,  0.5,  0, 1, 1,

   -0.5, -0.5, -0.5,  1, 0, 1,
    0.5, -0.5, -0.5,  1, 0, 1,
    0.5,  0.5, -0.5,  1, 0, 1,
   -0.5,  0.5, -0.5,  1, 0, 1,

   -0.5, -0.5, -0.5,  1, 1, 0,
   -0.5, -0.5,  0.5,  1, 1, 0,
   -0.5,  0.5,  0.5,  1, 1, 0,
   -0.5,  0.5, -0.5,  1, 1, 0,

    0.5, -0.5, -0.5,  0, 1, 0,
    0.5, -0.5,  0.5,  0, 1, 0,
    0.5,  0.5,  0.5,  0, 1, 0,
    0.5,  0.5, -0.5,  0, 1, 0,

   -0.5,  0.5, -0.5,  0, 0, 1,
   -0.5,  0.5,  0.5,  0, 0, 1,
    0.5,  0.5,  0.5,  0, 0, 1,
    0.5,  0.5, -0.5,  0, 0, 1,

   -0.5, -0.5, -0.5,  1, 0, 0,
   -0.5, -0.5,  0.5,  1, 0, 0,
    0.5, -0.5,  0.5,  1, 0, 0,
    0.5, -0.5, -0.5,  1, 0, 0]

/-- The mutable attributes of `GLWidget`. `proj` starts as `None`. -/
structure Scene where
  angle : ℚ
  proj : Option M4
  view : M4
  model : M4
  axesVertices : List ℚ
  cubeVertices : List ℚ

/-- The state set up by `GLWidget.__init__` together with
`init_geometries`. -/
noncomputable def initState : Scene :=
  { angle := 0
    proj := none
    view := look_at ⟨3, 3, 3⟩ ⟨0, 0, 0⟩ ⟨0, 1, 0⟩
    model := 1
    axesVertices := axesTable
    cubeVertices := cubeTable }

/-- The angle part of `update_rotation`: `angle += 1.0`, then subtract
`360.0` once if the result is `≥ 360.0`. -/
def stepAngle (a : ℚ) : ℚ :=
  if a + 1 ≥ 360 then a + 1 - 360 else a + 1

/-- `GLWidget.update_rotation` (the spec's `advance()`): bump the angle
and rebuild the model matrix as a Y rotation by the angle in radians. -/
noncomputable def update_rotation (s : Scene) : Scene :=
  { s with
      angle := stepAngle s.angle
      model := from_y_rotation (radians (stepAngle s.angle)) }

/-- `GLWidget.resizeGL(w, h)`: `aspect = w / h if h != 0 else 1`, then
`proj = perspective_projection(45.0, aspect, 0.1, 100.0)`. -/
noncomputable def resizeGL (s : Scene) (w h : ℚ) : Scene :=
  { s with
      proj := some (perspective_projection 45 ((if h ≠ 0 then w / h else 1 : ℚ) : ℝ) 0.1 100) }

/-- Division as Python evaluates it: `ZeroDivisionError` on a zero
divisor is modelled as `none`. -/
def checkedDiv (a b : ℚ) : Option ℚ :=
  if b = 0 then none else some (a / b)

/-- The projection computed by `resizeGL`, with the division modelled as
fallible: `none` would mean the call raised `ZeroDivisionError`. -/
noncomputable def resizeGLChecked (w h : ℚ) : Option M4 :=
  if h ≠ 0 then
    (checkedDiv w h).map fun aspect => perspective_projection 45 (aspect : ℝ) 0.1 100
  else
    some (perspective_projection 45 1 0.1 100)

/-- Primitive mode passed to `glBegin`. -/
inductive GLMode where
  | lines
  | quads
deriving DecidableEq

/-- The immediate-mode GL calls `paintGL` and its helpers issue, in
order. -/
inductive GLCmd where
  | clear
  | matrixModeModelview
  | loadMatrix (m : M4)
  | beginPrim (mode : GLMode)
  | endPrim
  | color (r g b : ℚ)
  | vertex (x y z : ℚ)

def GLCmd.isLoadMatrix : GLCmd → Bool
  | GLCmd.loadMatrix _ => true
  | _ => false

def GLCmd.isVertex : GLCmd → Bool
  | GLCmd.vertex _ _ _ => true
  | _ => false

/-- Python indexing into the flat vertex array (all the accesses in the
source are in bounds). -/
def vAt (v : List ℚ) (i : ℕ) : ℚ := v.getD i 0

/-- `GLWidget.draw_axes`: `for i in range(0, len(vertices), 12)`, emit
color of the first endpoint, the first endpoint, color of the second
endpoint, the second endpoint. -/
def draw_axes (v : List ℚ) : List GLCmd :=
  GLCmd.beginPrim GLMode.lines ::
    ((List.range ((v.length + 11) / 12)).map (12 * ·)).flatMap (fun i =>
      [GLCmd.color (vAt v (i + 3)) (vAt v (i + 4)) (vAt v (i + 5)),
       GLCmd.vertex (vAt v i) (vAt v (i + 1)) (vAt v (i + 2)),
       GLCmd.color (vAt v (i + 9)) (vAt v (i + 10)) (vAt v (i + 11)),
       GLCmd.vertex (vAt v (i + 6)) (vAt v (i + 7)) (vAt v (i + 8))])
    ++ [GLCmd.endPrim]

/-- `GLWidget.draw_cube`: `for i in range(0, len(vertices), 24)`, then
for each of the 4 vertices of the face emit its color and position. -/
def draw_cube (v : List ℚ) : List GLCmd :=
  GLCmd.beginPrim GLMode.quads ::
    ((List.range ((v.length + 23) / 24)).map (24 * ·)).flatMap (fun i =>
      (List.range 4).flatMap (fun j =>
        [GLCmd.color (vAt v (i + j * 6 + 3)) (vAt v (i + j * 6 + 4)) (vAt v (i + j * 6 + 5)),
         GLCmd.vertex (vAt v (i + j * 6)) (vAt v (i + j * 6 + 1)) (vAt v (i + j * 6 + 2))]))
    ++ [GLCmd.endPrim]

/-- `GLWidget.paintGL`: clear, compute `mvp = proj * view * model` with
pyrr multiplication, load it, draw the axes, draw the cube. `none`
models the `TypeError` Python would raise if `proj` were still `None`. -/
noncomputable def paintGL (s : Scene) : Option (List GLCmd) :=
  s.proj.map fun p =>
    GLCmd.clear ::
    GLCmd.matrixModeModelview ::
    GLCmd.loadMatrix (pyrrMul (pyrrMul p s.view) s.model) ::
    (draw_axes s.axesVertices ++ draw_cube s.cubeVertices)

/-- `paintGL` as a state transition: it mutates no attribute, it only
issues GL calls. -/
noncomputable def paintGLRun (s : Scene) : Scene × Option (List GLCmd) :=
  (s, paintGL s)

/-- `GLWidget.add_geometry(vertices)`: the body is `pass`. -/
def add_geometry (s : Scene) (_vertices : List ℚ) : Scene := s

/-- `x mod 360` on rationals, the mathematical normalization the spec
describes: the representative in `[0, 360)`. -/
def qmod360 (x : ℚ) : ℚ := x - 360 * ⌊x / 360⌋

/-- Position of vertex number `v` in a flat interleaved table. -/
def posOf (t : List ℚ) (v : ℕ) : ℚ × ℚ × ℚ :=
  (vAt t (6 * v), vAt t (6 * v + 1), vAt t (6 * v + 2))

/-- Color of vertex number `v` in a flat interleaved table. -/
def colorOf (t : List ℚ) (v : ℕ) : ℚ × ℚ × ℚ :=
  (vAt t (6 * v + 3), vAt t (6 * v + 4), vAt t (6 * v + 5))

/-- Coordinate `a` of a point. -/
def coord : Fin 3 → ℚ × ℚ × ℚ → ℚ
  | 0, p => p.1
  | 1, p => p.2.1
  | 2, p => p.2.2

/-- The two coordinates other than axis `a`. -/
def otherPair : Fin 3 → ℚ × ℚ × ℚ → ℚ × ℚ
  | 0, p => (p.2.1, p.2.2)
  | 1, p => (p.1, p.2.2)
  | 2, p => (p.1, p.2.1)

/-- Standard basis vectors of ℚ³. -/
def basisQ : Fin 3 → ℚ × ℚ × ℚ
  | 0 => (1, 0, 0)
  | 1 => (0, 1, 0)
  | 2 => (0, 0, 1)

/-- The four corners of the axis-aligned unit square of side 1 centered
at the origin of a coordinate plane. -/
def squareCorners : List (ℚ × ℚ) :=
  [(-0.5, -0.5), (0.5, -0.5), (0.5, 0.5), (-0.5, 0.5)]

/-- The six face colors of the cube, in table order: cyan, magenta,
yellow, green, blue, red. -/
def faceColor : Fin 6 → ℚ × ℚ × ℚ
  | 0 => (0, 1, 1)
  | 1 => (1, 0, 1)
  | 2 => (1, 1, 0)
  | 3 => (0, 1, 0)
  | 4 => (0, 0, 1)
  | 5 => (1, 0, 0)

/-! ### Helper lemmas -/

theorem update_rotation_angle (s : Scene) :
    (update_rotation s).angle = stepAngle s.angle := rfl

theorem update_rotation_model (s : Scene) :
    (update_rotation s).model = from_y_rotation (radians ((update_rotation s).angle)) := rfl

theorem stepAngle_mem {a : ℚ} (h0 : 0 ≤ a) (h1 : a < 360) :
    0 ≤ stepAngle a ∧ stepAngle a < 360 := by
  unfold stepAngle
  split <;> constructor <;> linarith

theorem stepAngle_eq_qmod360 {a : ℚ} (h0 : 0 ≤ a) (h1 : a < 360) :
    stepAngle a = qmod360 (a + 1) := by
  unfold stepAngle qmod360
  split
  · have hfl : ⌊(a + 1) / 360⌋ = 1 := by
      rw [Int.floor_eq_iff]
      constructor
      · rw [le_div_iff₀ (by norm_num : (0:ℚ) < 360)]
        push_cast
        linarith
      · rw [div_lt_iff₀ (by norm_num : (0:ℚ) < 360)]
        push_cast
        linarith
    rw [hfl]
    push_cast
    ring
  · have hfl : ⌊(a + 1) / 360⌋ = 0 := by
      rw [Int.floor_eq_iff]
      constructor
      · rw [le_div_iff₀ (by norm_num : (0:ℚ) < 360)]
        push_cast
        linarith
      · rw [div_lt_iff₀ (by norm_num : (0:ℚ) < 360)]
        push_cast
        linarith
    rw [hfl]
    push_cast
    ring

theorem iterate_angle (s : Scene) (n : ℕ) :
    (update_rotation^[n] s).angle = stepAngle^[n] s.angle := by
  induction n with
  | zero => rfl
  | succ n ih =>
    rw [Function.iterate_succ_apply', Function.iterate_succ_apply',
      update_rotation_angle, ih]

theorem stepAngle_iterate_mem {a : ℚ} (h0 : 0 ≤ a) (h1 : a < 360) (n : ℕ) :
    0 ≤ stepAngle^[n] a ∧ stepAngle^[n] a < 360 := by
  induction n with
  | zero => exact ⟨h0, h1⟩
  | succ n ih =>
    rw [Function.iterate_succ_apply']
    exact stepAngle_mem ih.1 ih.2

theorem stepAngle_iterate_from_zero {n : ℕ} (hn : n ≤ 359) :
    stepAngle^[n] (0 : ℚ) = n := by
  induction n with
  | zero => rfl
  | succ n ih =>
    rw [Function.iterate_succ_apply', ih (by omega)]
    unfold stepAngle
    rw [if_neg]
    · push_cast
      ring
    · have hc : (n : ℚ) ≤ 358 := by exact_mod_cast (by omega : n ≤ 358)
      simp only [ge_iff_le, not_le]
      linarith

theorem stepAngle_iterate_360 : stepAngle^[360] (0 : ℚ) = 0 := by
  have h359 : stepAngle^[359] (0 : ℚ) = 359 :=
    stepAngle_iterate_from_zero (by omega)
  have h360 : (360 : ℕ) = 359 + 1 := rfl
  rw [h360, Function.iterate_succ_apply', h359]
  unfold stepAngle
  rw [if_pos (by norm_num)]
  norm_num

theorem from_y_rotation_zero : from_y_rotation (radians 0) = 1 := by
  have h : radians 0 = 0 := by simp [radians]
  rw [h]
  unfold from_y_rotation
  ext i j
  fin_cases i <;> fin_cases j <;>
    simp [Matrix.one_apply, Matrix.vecHead, Matrix.vecTail]

theorem mem_draw_axes_not_load (v : List ℚ) :
    ∀ c ∈ draw_axes v, c.isLoadMatrix = false := by
  intro c hc
  rcases List.mem_cons.mp hc with rfl | hc
  · rfl
  rcases List.mem_append.mp hc with hc | hc
  · rcases List.mem_flatMap.mp hc with ⟨i, _, hci⟩
    simp only [List.mem_cons, List.not_mem_nil, or_false] at hci
    rcases hci with rfl | rfl | rfl | rfl <;> rfl
  · rcases List.mem_singleton.mp hc
    rfl

theorem mem_draw_cube_not_load (v : List ℚ) :
    ∀ c ∈ draw_cube v, c.isLoadMatrix = false := by
  intro c hc
  rcases List.mem_cons.mp hc with rfl | hc
  · rfl
  rcases List.mem_append.mp hc with hc | hc
  · rcases List.mem_flatMap.mp hc with ⟨i, _, hci⟩
    rcases List.mem_flatMap.mp hci with ⟨j, _, hcj⟩
    simp only [List.mem_cons, List.not_mem_nil, or_false] at hcj
    rcases hcj with rfl | rfl <;> rfl
  · rcases List.mem_singleton.mp hc
    rfl

theorem draws_countP_load (va vc : List ℚ) :
    (draw_axes va ++ draw_cube vc).countP GLCmd.isLoadMatrix = 0 := by
  rw [List.countP_eq_zero]
  intro c hc
  rcases List.mem_append.mp hc with h | h
  · simp [mem_draw_axes_not_load va c h]
  · simp [mem_draw_cube_not_load vc c h]

theorem tan8_pos : 0 < Real.tan (45 * π / 360) := by
  have h : (45 : ℝ) * π / 360 = π / 8 := by ring
  rw [h]
  exact Real.tan_pos_of_pos_of_lt_pi_div_two (by positivity) (by linarith [Real.pi_pos])

theorem faceColor_of_table : ∀ f : Fin 6,
    colorOf cubeTable (4 * (f : ℕ)) = faceColor f := by
  intro f
  fin_cases f <;> rfl

theorem cornerSeq_perm :
    List.Perm [((-0.5 : ℚ), (-0.5 : ℚ)), (-0.5, 0.5), (0.5, 0.5), (0.5, -0.5)] squareCorners :=
  List.Perm.cons _ (List.reverse_perm [((0.5 : ℚ), (-0.5 : ℚ)), (0.5, 0.5), (-0.5, 0.5)])

/-! ### Claims -/

/-- C1 (counterexample): from the real starting angle 720 a single
`update_rotation` stores 361, which lies outside [0, 360) and differs
from (720 + 1) mod 360 = 1; so neither the "(previous angle + 1.0) mod
360" description nor the "always lies in [0, 360)" consequence holds for
every real starting angle. -/
theorem update_rotation_from_720_escapes :
    (update_rotation { initState with angle := 720 }).angle = 361 ∧
    ¬ ((update_rotation { initState with angle := 720 }).angle < 360) ∧
    (update_rotation { initState with angle := 720 }).angle ≠ qmod360 (720 + 1) := by
  have hstep : (update_rotation { initState with angle := 720 }).angle = 361 := by
    show stepAngle 720 = 361
    unfold stepAngle
    rw [if_pos (by norm_num)]
    norm_num
  have hq : qmod360 (720 + 1) = 1 := by
    unfold qmod360
    rw [show ⌊((720 : ℚ) + 1) / 360⌋ = 2 by norm_num]
    norm_num
  refine ⟨hstep, ?_, ?_⟩
  · rw [hstep]
    norm_num
  · rw [hstep, hq]
    norm_num

/-- C1 (amended): for every starting angle in [0, 360) — which covers
every reachable state, the initial angle being 0 — `update_rotation`
stores (previous angle + 1.0) mod 360, sets the model matrix to the
rotation about the Y axis by that angle converted to radians, and under
repeated application the stored angle always lies in [0, 360). -/
theorem update_rotation_mod_and_bounded (s : Scene)
    (h0 : 0 ≤ s.angle) (h1 : s.angle < 360) :
    (update_rotation s).angle = qmod360 (s.angle + 1) ∧
    (update_rotation s).model = from_y_rotation (radians ((update_rotation s).angle)) ∧
    ∀ n : ℕ, 0 ≤ (update_rotation^[n] s).angle ∧ (update_rotation^[n] s).angle < 360 := by
  refine ⟨?_, rfl, fun n => ?_⟩
  · rw [update_rotation_angle]
    exact stepAngle_eq_qmod360 h0 h1
  · rw [iterate_angle]
    exact stepAngle_iterate_mem h0 h1 n

/-- Witness for the amended C1 at the initial state. -/
theorem update_rotation_mod_and_bounded_witness :
    (update_rotation initState).angle = qmod360 (initState.angle + 1) ∧
    (update_rotation initState).model =
      from_y_rotation (radians ((update_rotation initState).angle)) ∧
    ∀ n : ℕ, 0 ≤ (update_rotation^[n] initState).angle ∧
      (update_rotation^[n] initState).angle < 360 :=
  update_rotation_mod_and_bounded initState (by norm_num [initState]) (by norm_num [initState])

/-- C2: `paintGL` loads exactly one transform before any vertex
submission: the pyrr product `proj * view * model`, i.e. the row-major
matrix model·view·proj, whose transpose is the column-vector product
projᵀ·viewᵀ·modelᵀ (projection outermost) and which applies the model
first and the projection last to row vectors; the axes and the cube are
both submitted under that single shared transform, with no per-object
transform. -/
theorem paintGL_single_shared_mvp (s : Scene) (p : M4) :
    paintGL { s with proj := some p } =
      some (GLCmd.clear :: GLCmd.matrixModeModelview ::
        GLCmd.loadMatrix (s.model * s.view * p) ::
        (draw_axes s.axesVertices ++ draw_cube s.cubeVertices)) ∧
    (s.model * s.view * p).transpose =
      p.transpose * s.view.transpose * s.model.transpose ∧
    (∀ v : Fin 4 → ℝ,
      Matrix.vecMul v (s.model * s.view * p) =
        Matrix.vecMul (Matrix.vecMul (Matrix.vecMul v s.model) s.view) p) ∧
    ((draw_axes s.axesVertices ++ draw_cube s.cubeVertices).countP
        GLCmd.isLoadMatrix) = 0 ∧
    (((paintGL { s with proj := some p }).getD []).countP GLCmd.isLoadMatrix) = 1 := by
  have hmvp : pyrrMul (pyrrMul p s.view) s.model = s.model * s.view * p := by
    simp [pyrrMul, Matrix.mul_assoc]
  refine ⟨?_, ?_, ?_, draws_countP_load _ _, ?_⟩
  · simp [paintGL, hmvp]
  · simp [Matrix.transpose_mul, Matrix.mul_assoc]
  · intro v
    simp [Matrix.vecMul_vecMul, Matrix.mul_assoc]
  · simp [paintGL, List.countP_cons, draws_countP_load, GLCmd.isLoadMatrix]
    exact ⟨mem_draw_axes_not_load _, mem_draw_cube_not_load _⟩

/-- C3: `resizeGL` performs no division when the height is 0 (it
substitutes aspect ratio 1), so it never raises a division error; for a
nonzero height the projection is the perspective matrix with fov 45°,
aspect w/h, near 0.1 and far 100. -/
theorem resizeGL_zero_height_guard (s : Scene) (w h : ℚ) :
    (resizeGL s w h).proj = resizeGLChecked w h ∧
    (resizeGLChecked w h).isSome = true ∧
    resizeGLChecked w 0 = some (perspective_projection 45 1 0.1 100) ∧
    (h ≠ 0 → resizeGLChecked w h =
      some (perspective_projection 45 ((w / h : ℚ) : ℝ) 0.1 100)) := by
  refine ⟨?_, ?_, ?_, fun hh => ?_⟩
  · by_cases hh : h = 0 <;> simp [resizeGL, resizeGLChecked, checkedDiv, hh]
  · by_cases hh : h = 0 <;> simp [resizeGLChecked, checkedDiv, hh]
  · simp [resizeGLChecked]
  · simp [resizeGLChecked, checkedDiv, hh]

/-- Witness for C3 at height 0 and at 800×600. -/
theorem resizeGL_zero_height_guard_witness :
    resizeGLChecked 800 0 = some (perspective_projection 45 1 0.1 100) ∧
    resizeGLChecked 800 600 =
      some (perspective_projection 45 (((800 : ℚ) / 600 : ℚ) : ℝ) 0.1 100) :=
  ⟨(resizeGL_zero_height_guard initState 800 0).2.2.1,
   (resizeGL_zero_height_guard initState 800 600).2.2.2 (by norm_num)⟩

/-- C4: starting from the initial state (angle 0), exactly 360 calls to
`update_rotation` return the stored angle to 0 and leave the model
matrix equal to the identity — exactly, the embedding being over exact
arithmetic. -/
theorem advance_360_identity :
    (update_rotation^[360] initState).angle = 0 ∧
    (update_rotation^[360] initState).model = 1 := by
  have ha : (update_rotation^[360] initState).angle = 0 := by
    rw [iterate_angle]
    exact stepAngle_iterate_360
  refine ⟨ha, ?_⟩
  have h360 : (360 : ℕ) = 359 + 1 := rfl
  have hang := ha
  rw [h360, Function.iterate_succ_apply'] at hang
  rw [h360, Function.iterate_succ_apply', update_rotation_model, hang]
  exact from_y_rotation_zero

/-- C5: resizing to 800×600 sets the projection to the perspective
matrix with aspect 800/600 = 4/3 and fov 45°; decomposing that matrix
recovers the inputs: entry (1,1) is 4/3 times entry (0,0) (the aspect),
entry (1,1) is the cotangent of half the 45° fov, and entries (2,2) and
(3,2) are the near/far combinations for near 0.1 and far 100. -/
theorem resize_800_600_matches_inputs :
    (resizeGL initState 800 600).proj =
      some (perspective_projection 45 ((4 : ℝ) / 3) 0.1 100) ∧
    ((800 : ℚ) / 600 : ℚ) = 4 / 3 ∧
    perspective_projection 45 ((4 : ℝ) / 3) 0.1 100 1 1 =
      (4 / 3) * perspective_projection 45 ((4 : ℝ) / 3) 0.1 100 0 0 ∧
    perspective_projection 45 ((4 : ℝ) / 3) 0.1 100 1 1 * Real.tan (45 * π / 360) = 1 ∧
    perspective_projection 45 ((4 : ℝ) / 3) 0.1 100 2 2 = -((100 + 0.1) / (100 - 0.1)) ∧
    perspective_projection 45 ((4 : ℝ) / 3) 0.1 100 3 2 = -(2 * 100 * 0.1 / (100 - 0.1)) := by
  have ht := tan8_pos
  refine ⟨?_, by norm_num, ?_, ?_, ?_, ?_⟩
  · simp [resizeGL]
    norm_num
  · simp only [perspective_projection, perspective_from_bounds, Matrix.of_apply,
      Matrix.cons_val_one, Matrix.cons_val_zero, Matrix.head_cons]
    field_simp
    ring
  · simp only [perspective_projection, perspective_from_bounds, Matrix.of_apply,
      Matrix.cons_val_one, Matrix.cons_val_zero, Matrix.head_cons]
    field_simp
    ring
  · simp only [perspective_projection, perspective_from_bounds, Matrix.of_apply,
      Matrix.cons_val_two, Matrix.cons_val_one, Matrix.cons_val_zero, Matrix.head_cons,
      Matrix.vecHead, Matrix.vecTail]
    norm_num
  · simp only [perspective_projection, perspective_from_bounds, Matrix.of_apply,
      Matrix.cons_val_three, Matrix.cons_val_two, Matrix.cons_val_one, Matrix.cons_val_zero,
      Matrix.head_cons, Matrix.vecHead, Matrix.vecTail]
    norm_num

set_option maxRecDepth 12000 in
/-- C6: the cube table holds exactly 6 faces × 4 vertices = 24
interleaved vertices (`draw_cube` submits 24); the 4 vertices of each
face share one color and the 6 face colors are pairwise distinct; every
position coordinate is ±0.5 (unit cube centered at the origin); and each
face has one axis-aligned coordinate fixed at ±0.5 with the other two
coordinates running over the four corners of a unit square of side 1
(hence coplanar). -/
theorem cube_geometry_correct :
    cubeTable.length = 24 * 6 ∧
    ((draw_cube cubeTable).countP GLCmd.isVertex) = 24 ∧
    (∀ f : Fin 6, ∀ j : Fin 4,
      colorOf cubeTable (4 * (f : ℕ) + (j : ℕ)) = colorOf cubeTable (4 * (f : ℕ))) ∧
    (∀ f g : Fin 6, f ≠ g →
      colorOf cubeTable (4 * (f : ℕ)) ≠ colorOf cubeTable (4 * (g : ℕ))) ∧
    (∀ v : Fin 24, ∀ a : Fin 3,
      coord a (posOf cubeTable (v : ℕ)) = 0.5 ∨ coord a (posOf cubeTable (v : ℕ)) = -0.5) ∧
    (∀ f : Fin 6, ∃ a : Fin 3, ∃ sgn : Bool,
      (∀ j : Fin 4, coord a (posOf cubeTable (4 * (f : ℕ) + (j : ℕ))) =
        (if sgn then (0.5 : ℚ) else -0.5)) ∧
      (List.ofFn fun j : Fin 4 =>
        otherPair a (posOf cubeTable (4 * (f : ℕ) + (j : ℕ)))).Perm squareCorners) := by
  refine ⟨rfl, rfl, ?_, ?_, ?_, ?_⟩
  · intro f j
    fin_cases f <;> fin_cases j <;> rfl
  · intro f g hne
    rw [faceColor_of_table f, faceColor_of_table g]
    revert hne
    fin_cases f <;> fin_cases g <;> simp [faceColor, Prod.ext_iff]
  · intro v a
    fin_cases v <;> fin_cases a <;> first | exact Or.inl rfl | exact Or.inr rfl
  · intro f
    fin_cases f
    · exact ⟨2, true, fun j => by fin_cases j <;> rfl, List.Perm.refl _⟩
    · exact ⟨2, false, fun j => by fin_cases j <;> rfl, List.Perm.refl _⟩
    · refine ⟨0, false, fun j => by fin_cases j <;> rfl, ?_⟩
      show List.Perm [((-0.5 : ℚ), (-0.5 : ℚ)), (-0.5, 0.5), (0.5, 0.5), (0.5, -0.5)]
        squareCorners
      exact cornerSeq_perm
    · refine ⟨0, true, fun j => by fin_cases j <;> rfl, ?_⟩
      show List.Perm [((-0.5 : ℚ), (-0.5 : ℚ)), (-0.5, 0.5), (0.5, 0.5), (0.5, -0.5)]
        squareCorners
      exact cornerSeq_perm
    · refine ⟨1, true, fun j => by fin_cases j <;> rfl, ?_⟩
      show List.Perm [((-0.5 : ℚ), (-0.5 : ℚ)), (-0.5, 0.5), (0.5, 0.5), (0.5, -0.5)]
        squareCorners
      exact cornerSeq_perm
    · refine ⟨1, false, fun j => by fin_cases j <;> rfl, ?_⟩
      show List.Perm [((-0.5 : ℚ), (-0.5 : ℚ)), (-0.5, 0.5), (0.5, 0.5), (0.5, -0.5)]
        squareCorners
      exact cornerSeq_perm

/-- Witness for C6's distinct-colors conjunct at faces 0 and 1. -/
theorem cube_geometry_correct_witness :
    colorOf cubeTable (4 * ((0 : Fin 6) : ℕ)) ≠ colorOf cubeTable (4 * ((1 : Fin 6) : ℕ)) :=
  cube_geometry_correct.2.2.2.1 0 1 (by decide)

/-- C7: the axes table holds exactly 3 segments (6 vertices, and
`draw_axes` submits 6); segment k runs from the origin to the k-th unit
basis vector and both its endpoints carry that basis vector as color
(red X, green Y, blue Z). -/
theorem axes_geometry_correct :
    axesTable.length = 6 * 6 ∧
    ((draw_axes axesTable).countP GLCmd.isVertex) = 6 ∧
    (∀ k : Fin 3,
      posOf axesTable (2 * (k : ℕ)) = (0, 0, 0) ∧
      posOf axesTable (2 * (k : ℕ) + 1) = basisQ k ∧
      colorOf axesTable (2 * (k : ℕ)) = basisQ k ∧
      colorOf axesTable (2 * (k : ℕ) + 1) = basisQ k) := by
  refine ⟨rfl, rfl, fun k => ?_⟩
  fin_cases k <;> exact ⟨rfl, rfl, rfl, rfl⟩

/-- C8: `add_geometry` returns the state unchanged (its body is `pass`),
so in particular the vertex counts of the axes and cube tables are
unchanged, and being a total function it never raises. -/
theorem add_geometry_noop (s : Scene) (v : List ℚ) :
    add_geometry s v = s ∧
    (add_geometry s v).axesVertices.length = s.axesVertices.length ∧
    (add_geometry s v).cubeVertices.length = s.cubeVertices.length :=
  ⟨rfl, rfl, rfl⟩

/-- C9: the view matrix is fixed at construction to
look_at(eye=(3,3,3), target=origin, up=+Y) and no operation —
`update_rotation`, `resizeGL`, `paintGL`, `add_geometry` — mutates it. -/
theorem view_fixed_at_construction :
    initState.view = look_at ⟨3, 3, 3⟩ ⟨0, 0, 0⟩ ⟨0, 1, 0⟩ ∧
    (∀ s, (update_rotation s).view = s.view) ∧
    (∀ s w h, (resizeGL s w h).view = s.view) ∧
    (∀ s, (paintGLRun s).1.view = s.view) ∧
    (∀ s v, (add_geometry s v).view = s.view) :=
  ⟨rfl, fun _ => rfl, fun _ _ _ => rfl, fun _ => rfl, fun _ _ => rfl⟩

/-- C10: the interval [0, 360) is an inductive invariant of a single
`update_rotation` step — the single conditional subtraction of 360
suffices under this precondition — and it holds at the initial angle
0.0. -/
theorem angle_invariant_single_step :
    initState.angle = 0 ∧
    (∀ s : Scene, 0 ≤ s.angle → s.angle < 360 →
      0 ≤ (update_rotation s).angle ∧ (update_rotation s).angle < 360) := by
  refine ⟨rfl, fun s h0 h1 => ?_⟩
  rw [update_rotation_angle]
  exact stepAngle_mem h0 h1

/-- Witness for C10 at the initial state. -/
theorem angle_invariant_single_step_witness :
    0 ≤ (update_rotation initState).angle ∧ (update_rotation initState).angle < 360 :=
  angle_invariant_single_step.2 initState (by norm_num [initState]) (by norm_num [initState])

end LinAl
